import Mathlib

/-!
Shallow embedding of the grocery-ordering prototype (`src/app.py`).

Python `float` prices are modelled as rationals (`ℚ`); Python `int` as `ℤ`
(unbounded, may go negative).  The store's `products` dict is modelled as an
association list with Python-dict semantics: lookup finds the first matching
key, assignment to an existing key updates in place, assignment to a fresh
key appends.  Raised `ValueError`s are modelled with an explicit error type.
-/

set_option autoImplicit false

namespace Grocery

/-- `Product` dataclass (`src/app.py` lines 31-36). -/
structure Product where
  id : Int
  name : String
  price : ℚ
  quantity : Int
deriving DecidableEq, Repr

/-- `OrderItem` dataclass (`src/app.py` lines 39-42). -/
structure OrderItem where
  product_id : Int
  quantity : Int
deriving DecidableEq, Repr

/-- `Order` dataclass (`src/app.py` lines 45-51). -/
structure Order where
  id : Int
  items : List OrderItem
  total_price : ℚ
  delivery_method : String
  status : String
deriving DecidableEq, Repr

/-- The `products: Dict[int, Product]` field, as an association list. -/
abbrev ProductDict := List (Int × Product)

/-- Python `dict.get`: first binding of the key, if any. -/
def dictGet : ProductDict → Int → Option Product
  | [], _ => none
  | (k, v) :: rest, key => if k = key then some v else dictGet rest key

/-- Python `d[key] = v`: update the binding in place, or append a fresh key. -/
def dictSet : ProductDict → Int → Product → ProductDict
  | [], key, v => [(key, v)]
  | (k, w) :: rest, key, v =>
    if k = key then (k, v) :: rest else (k, w) :: dictSet rest key v

/-- Mutation of the product stored at a key (`self.products[pid].field = ...`);
if the key is absent nothing happens (unreachable in the embedded code paths,
which mutate only keys known to be present). -/
def dictModify (d : ProductDict) (key : Int) (f : Product → Product) : ProductDict :=
  match d with
  | [] => []
  | (k, v) :: rest =>
    if k = key then (k, f v) :: rest else (k, v) :: dictModify rest key f

/-- `dict.keys()`. -/
def dictKeys (d : ProductDict) : List Int := d.map Prod.fst

/-- `Store` dataclass (`src/app.py` lines 54-59). -/
structure Store where
  id : Int
  name : String
  products : ProductDict
  orders : List Order
deriving DecidableEq, Repr

/-- The three `ValueError`s raised by `Store.create_order`
(`src/app.py` lines 86, 88, 90); `insufficientStock` carries the product
name interpolated into the message. -/
inductive OrderError where
  | productNotFound
  | invalidQuantity
  | insufficientStock (name : String)
deriving DecidableEq, Repr

instance {ε α : Type} [DecidableEq ε] [DecidableEq α] : DecidableEq (Except ε α)
  | .error a, .error b =>
    if h : a = b then .isTrue (by rw [h]) else .isFalse (fun hc => h (Except.error.inj hc))
  | .error _, .ok _ => .isFalse (fun hc => Except.noConfusion hc)
  | .ok _, .error _ => .isFalse (fun hc => Except.noConfusion hc)
  | .ok a, .ok b =>
    if h : a = b then .isTrue (by rw [h]) else .isFalse (fun hc => h (Except.ok.inj hc))

namespace Store

/-- `Store.next_product_id` (`src/app.py` lines 61-62):
`max(self.products.keys()) + 1` if nonempty else `1`. -/
def next_product_id (s : Store) : Int :=
  match s.products with
  | [] => 1
  | (k, _) :: rest => (rest.foldl (fun m kv => max m kv.1) k) + 1

/-- `Store.next_order_id` (`src/app.py` lines 64-65):
`max([o.id for o in self.orders]) + 1` if nonempty else `1`. -/
def next_order_id (s : Store) : Int :=
  match s.orders with
  | [] => 1
  | o :: os => (os.foldl (fun m o2 => max m o2.id) o.id) + 1

/-- `Store.add_product` (`src/app.py` lines 67-69). -/
def add_product (s : Store) (name : String) (price : ℚ) (quantity : Int) : Store :=
  let pid := s.next_product_id
  { s with products := dictSet s.products pid ⟨pid, name, price, quantity⟩ }

/-- `Store.update_product` (`src/app.py` lines 71-75): if the id is present,
overwrite that product's `name`, `price` and `quantity` fields; otherwise do
nothing. -/
def update_product (s : Store) (product_id : Int) (name : String)
    (price : ℚ) (quantity : Int) : Store :=
  if (dictGet s.products product_id).isSome then
    let overwrite : Product → Product :=
      fun p => { p with name := name, price := price, quantity := quantity }
    { s with products := dictModify s.products product_id overwrite }
  else s

/-- The validation loop of `Store.create_order` (`src/app.py` lines 82-91):
walk the lines in order, accumulating `total`; raise on the first line whose
product is absent, whose quantity is ≤ 0, or whose quantity exceeds the
product's current stock.  This loop performs no mutation. -/
def validateItems (products : ProductDict) :
    List OrderItem → ℚ → Except OrderError ℚ
  | [], total => .ok total
  | item :: rest, total =>
    match dictGet products item.product_id with
    | none => .error .productNotFound
    | some product =>
      if item.quantity ≤ 0 then .error .invalidQuantity
      else if product.quantity < item.quantity then
        .error (.insufficientStock product.name)
      else validateItems products rest (total + product.price * item.quantity)

/-- The decrement loop of `Store.create_order` (`src/app.py` lines 94-95):
`self.products[item.product_id].quantity -= item.quantity` for each line. -/
def decrementItems (products : ProductDict) : List OrderItem → ProductDict
  | [] => products
  | item :: rest =>
      decrementItems
        (dictModify products item.product_id
          (fun p => { p with quantity := p.quantity - item.quantity }))
        rest

/-- Python `round(x, 2)` on the rational model: round `x * 100` to the
nearest integer, ties to even (banker's rounding), and divide by 100. -/
def round2 (x : ℚ) : ℚ :=
  let s : ℚ := x * 100
  let f : Int := ⌊s⌋
  let r : ℚ := s - f
  let n : Int :=
    if r < 1/2 then f
    else if 1/2 < r then f + 1
    else if f % 2 = 0 then f else f + 1
  (n : ℚ) / 100

/-- `Store.create_order` (`src/app.py` lines 80-105).  Returns the store
after the call together with the returned order, or the raised error (the
validation loop raises before any mutation, so on error the store is the
one passed in). -/
def create_order (s : Store) (items : List OrderItem) (delivery_method : String) :
    Store × Except OrderError Order :=
  match validateItems s.products items 0 with
  | .error e => (s, .error e)
  | .ok total =>
    let products2 := decrementItems s.products items
    let order : Order :=
      { id := s.next_order_id
        items := items
        total_price := round2 total
        delivery_method := delivery_method
        status := "pending" }
    ({ s with products := products2, orders := s.orders ++ [order] }, .ok order)

/-- `Store.get_order` (`src/app.py` lines 107-108): first order with the id. -/
def get_order (s : Store) (order_id : Int) : Option Order :=
  s.orders.find? (fun o => o.id = order_id)

end Store

/-- Python `str.strip()`: drop whitespace from both ends. -/
def pyStrip (x : String) : String :=
  String.mk (((x.data.dropWhile Char.isWhitespace).reverse.dropWhile
    Char.isWhitespace).reverse)

/-- The `add_product` route (`src/app.py` lines 336-356), after form parsing:
strip the name; reject an empty name; otherwise insert with price clamped to
`max(price, 0.0)` and quantity clamped to `max(quantity, 0)`. -/
def add_product_route (s : Store) (name : String) (price : ℚ) (quantity : Int) :
    Except String Store :=
  let name := pyStrip name
  if name = "" then .error "Product name is required."
  else .ok (s.add_product name (max price 0) (max quantity 0))

/-- The allowed order statuses of the `update_order_status` route
(`src/app.py` line 408). -/
def allowedStatuses : List String := ["pending", "accepted", "ready", "completed"]

/-- Mutation of the order object returned by `get_order`: set the status of
the first order in the ledger carrying the id. -/
def setStatusFirst (orders : List Order) (order_id : Int) (st : String) : List Order :=
  match orders with
  | [] => []
  | o :: os =>
    if o.id = order_id then { o with status := st } :: os
    else o :: setStatusFirst os order_id st

/-- The `update_order_status` route (`src/app.py` lines 396-415), after form
parsing: if the order is absent or the requested status is outside the
allowed set, nothing changes; otherwise the found order's status is set. -/
def update_order_status (s : Store) (order_id : Int) (new_status : String) : Store :=
  match s.get_order order_id with
  | none => s
  | some _ =>
    if new_status ∈ allowedStatuses then
      { s with orders := setStatusFirst s.orders order_id new_status }
    else s

/-!  Spec-side definitions (for refinement claims), written from the spec's
words in §4.2: per-line classification, first failing line, and the exact
sum of `price × quantity` over all lines.  -/

/-- Spec §4.2, per line: `ProductNotFound` if the product is absent,
`InvalidQuantity` if the quantity is ≤ 0, `InsufficientStock` if the
quantity exceeds the product's current stock; otherwise the line passes. -/
def specLineError (products : ProductDict) (it : OrderItem) : Option OrderError :=
  match dictGet products it.product_id with
  | none => some .productNotFound
  | some p =>
    if it.quantity ≤ 0 then some .invalidQuantity
    else if p.quantity < it.quantity then some (.insufficientStock p.name)
    else none

/-- Spec §4.2: the error of the first failing line, if any line fails. -/
def specFirstError (products : ProductDict) : List OrderItem → Option OrderError
  | [] => none
  | it :: rest =>
    match specLineError products it with
    | some e => some e
    | none => specFirstError products rest

/-- Spec §4.2 (3): the exact sum of `price × quantity` over all lines
(an absent product contributes 0; on a successful order every product is
present, so the default is never exercised there). -/
def specTotal (products : ProductDict) : List OrderItem → ℚ
  | [] => 0
  | it :: rest =>
    (match dictGet products it.product_id with
     | some p => p.price
     | none => 0) * it.quantity + specTotal products rest

/-! Helper lemmas. -/

theorem dictGet_dictModify_ne (d : ProductDict) (key k : Int) (f : Product → Product)
    (h : k ≠ key) : dictGet (dictModify d key f) k = dictGet d k := by
  induction d with
  | nil => rfl
  | cons kv rest ih =>
    obtain ⟨k0, v0⟩ := kv
    by_cases hk : k0 = key
    · subst hk
      have hne : ¬ k0 = k := fun h2 => h h2.symm
      simp [dictModify, dictGet, hne]
    · simp [dictModify, hk, dictGet]
      by_cases hk2 : k0 = k
      · simp [hk2]
      · simp [hk2, ih]

theorem dictGet_dictModify_eq (d : ProductDict) (key : Int) (f : Product → Product) :
    dictGet (dictModify d key f) key = (dictGet d key).map f := by
  induction d with
  | nil => rfl
  | cons kv rest ih =>
    obtain ⟨k0, v0⟩ := kv
    by_cases hk : k0 = key
    · simp [dictModify, hk, dictGet]
    · simp [dictModify, hk, dictGet, ih]

theorem validateItems_error_iff (products : ProductDict) (items : List OrderItem) :
    ∀ (t : ℚ) (e : OrderError),
      Store.validateItems products items t = .error e ↔
        specFirstError products items = some e := by
  induction items with
  | nil =>
    intro t e
    simp [Store.validateItems, specFirstError]
  | cons it rest ih =>
    intro t e
    simp only [Store.validateItems, specFirstError, specLineError]
    cases hget : dictGet products it.product_id with
    | none => simp
    | some p =>
      by_cases hq : it.quantity ≤ 0
      · simp [hq]
      · by_cases hs : p.quantity < it.quantity
        · simp [hq, hs]
        · simp [hq, hs, ih]

theorem validateItems_ok (products : ProductDict) (items : List OrderItem) :
    ∀ (t r : ℚ), Store.validateItems products items t = .ok r →
      r = t + specTotal products items := by
  induction items with
  | nil =>
    intro t r h
    simp [Store.validateItems] at h
    simp [specTotal, ← h]
  | cons it rest ih =>
    intro t r h
    simp only [Store.validateItems] at h
    cases hget : dictGet products it.product_id with
    | none => simp [hget] at h
    | some p =>
      rw [hget] at h
      by_cases hq : it.quantity ≤ 0
      · simp [hq] at h
      · by_cases hs : p.quantity < it.quantity
        · simp [hq, hs] at h
        · simp only [hq, hs, if_neg, if_false, ite_false] at h
          have := ih (t + p.price * it.quantity) r (by simpa using h)
          rw [this]
          simp [specTotal, hget]
          ring

theorem validateItems_ok_firstError_none (products : ProductDict)
    (items : List OrderItem) (t r : ℚ)
    (h : Store.validateItems products items t = .ok r) :
    specFirstError products items = none := by
  cases hfe : specFirstError products items with
  | none => rfl
  | some e =>
    have := (validateItems_error_iff products items t e).mpr hfe
    rw [h] at this
    exact absurd this (by simp)

theorem validateItems_total_ne (products : ProductDict) (items : List OrderItem)
    (t : ℚ) :
    specFirstError products items = none →
      Store.validateItems products items t = .ok (t + specTotal products items) := by
  intro hfe
  cases hv : Store.validateItems products items t with
  | error e =>
    have := (validateItems_error_iff products items t e).mp hv
    rw [hfe] at this
    exact absurd this (by simp)
  | ok r =>
    have := validateItems_ok products items t r hv
    rw [this]

theorem foldl_max_init_le (os : List Order) :
    ∀ a : Int, a ≤ os.foldl (fun m o2 => max m o2.id) a := by
  induction os with
  | nil => intro a; simp
  | cons o os ih =>
    intro a
    calc a ≤ max a o.id := le_max_left a o.id
    _ ≤ os.foldl (fun m o2 => max m o2.id) (max a o.id) := ih (max a o.id)

theorem foldl_max_mem_le (os : List Order) :
    ∀ (a : Int) (o : Order), o ∈ os →
      o.id ≤ os.foldl (fun m o2 => max m o2.id) a := by
  induction os with
  | nil => intro a o h; cases h
  | cons o2 os ih =>
    intro a o h
    cases h with
    | head => exact le_trans (le_max_right a _) (foldl_max_init_le os _)
    | tail _ h2 => exact ih (max a o2.id) o h2

theorem foldl_max_attained (os : List Order) :
    ∀ a : Int, os.foldl (fun m o2 => max m o2.id) a = a ∨
      ∃ o ∈ os, os.foldl (fun m o2 => max m o2.id) a = o.id := by
  induction os with
  | nil => intro a; left; rfl
  | cons o2 os ih =>
    intro a
    rcases ih (max a o2.id) with h | ⟨o, hmem, heq⟩
    · simp only [List.foldl_cons]
      rcases max_choice a o2.id with hm | hm
    -- the fold over the tail returned its initial value, which is either `a`
    -- or the head's id
      · left; rw [h, hm]
      · right; exact ⟨o2, List.mem_cons_self o2 os, by rw [h, hm]⟩
    · right
      exact ⟨o, List.mem_cons_of_mem o2 hmem, heq⟩

theorem find?_setStatusFirst (orders : List Order) (order_id : Int) (st : String)
    (o : Order) (h : orders.find? (fun o2 => o2.id = order_id) = some o) :
    (setStatusFirst orders order_id st).find? (fun o2 => o2.id = order_id)
      = some { o with status := st } := by
  induction orders with
  | nil => simp [List.find?] at h
  | cons o2 os ih =>
    by_cases h2 : o2.id = order_id
    · rw [List.find?_cons_of_pos _ (by simpa using h2)] at h
      cases h
      simp only [setStatusFirst, if_pos h2]
      exact List.find?_cons_of_pos _ (by simpa using h2)
    · rw [List.find?_cons_of_neg _ (by simpa using h2)] at h
      simp only [setStatusFirst, if_neg h2]
      rw [List.find?_cons_of_neg _ (by simpa using h2)]
      exact ih h

/-! Concrete states used in scenario theorems and witnesses. -/

/-- A store with an empty catalog and an empty ledger. -/
def emptyStore : Store := { id := 1, name := "S", products := [], orders := [] }

/-- The catalog of the spec's scenario: `Product(id=1, price=0.69, stock=100)`. -/
def scenarioStore : Store :=
  { id := 1, name := "S"
    products := [(1, { id := 1, name := "Bananas", price := 69/100, quantity := 100 })]
    orders := [] }

/-- The order produced by the spec's scenario `[(1, 5)]`, pickup. -/
def scenarioOrder : Order :=
  { id := 1, items := [⟨1, 5⟩], total_price := 69/20
    delivery_method := "pickup", status := "pending" }

/-- The store after the spec's scenario: stock 95, one order appended. -/
def scenarioStoreAfter : Store :=
  { scenarioStore with
    products := [(1, { id := 1, name := "Bananas", price := 69/100, quantity := 95 })]
    orders := [scenarioOrder] }

/-- A catalog with stock 5 of product 1, used to exhibit the duplicate-line
stock bug of `create_order`. -/
def dupStore : Store :=
  { id := 1, name := "S"
    products := [(1, { id := 1, name := "Bananas", price := 69/100, quantity := 5 })]
    orders := [] }

/-- The order returned for the duplicate-line input `[(1,3),(1,3)]`. -/
def dupOrder : Order :=
  { id := 1, items := [⟨1, 3⟩, ⟨1, 3⟩], total_price := 207/50
    delivery_method := "pickup", status := "pending" }

/-- The store after the duplicate-line call: product 1 is at stock −1. -/
def dupStoreAfter : Store :=
  { dupStore with
    products := [(1, { id := 1, name := "Bananas", price := 69/100, quantity := -1 })]
    orders := [dupOrder] }

/-- Evaluation of the spec's scenario call on the embedded code. -/
theorem scenario_eval :
    scenarioStore.create_order [⟨1, 5⟩] "pickup" = (scenarioStoreAfter, .ok scenarioOrder) := by
  have hv : Store.validateItems
      [(1, ({ id := 1, name := "Bananas", price := 69/100, quantity := 100 } : Product))]
      [⟨1, 5⟩] 0 = .ok (0 + 69/100 * 5) := by
    simp [Store.validateItems, dictGet]
  simp [Store.create_order, hv, Store.decrementItems, dictModify,
    Store.next_order_id, scenarioStore, scenarioStoreAfter, scenarioOrder]
  norm_num [Store.round2]

/-- Evaluation of an order against an empty catalog: the first line's
product is absent, so the call raises and the store is unchanged. -/
theorem empty_order_error_eval :
    emptyStore.create_order [⟨1, 1⟩] "pickup" = (emptyStore, .error .productNotFound) := by
  simp [Store.create_order, Store.validateItems, emptyStore, dictGet]

/-- C1: the claim says stock stays ≥ 0 after every `create_order` call, even
one whose item list repeats a product id.  The code validates each line
against the stock at call entry and only then applies all decrements, so
with stock 5 the list `[(1,3),(1,3)]` passes validation and leaves product 1
at stock −1 while the order is returned — refuting the invariant on the
code (the spec's §3 invariant is the clear intent, so this is a code bug). -/
theorem create_order_duplicate_lines_negative_stock :
    dupStore.create_order [⟨1, 3⟩, ⟨1, 3⟩] "pickup" = (dupStoreAfter, .ok dupOrder) ∧
    (dictGet dupStoreAfter.products 1).map Product.quantity = some (-1) := by
  constructor
  · have hv : Store.validateItems
        [(1, ({ id := 1, name := "Bananas", price := 69/100, quantity := 5 } : Product))]
        [⟨1, 3⟩, ⟨1, 3⟩] 0 = .ok (0 + 69/100 * 3 + 69/100 * 3) := by
      simp [Store.validateItems, dictGet]
    simp [Store.create_order, hv, Store.decrementItems, dictModify,
      Store.next_order_id, dupStore, dupStoreAfter, dupOrder]
    norm_num [Store.round2]
  · simp [dupStoreAfter, dupStore, dictGet]

/-- C2: whenever `create_order` raises, the store (its products mapping and
its order ledger) is exactly the one passed in: the validation loop mutates
nothing and raises before the decrement loop runs. -/
theorem create_order_error_state_unchanged (s : Store) (items : List OrderItem)
    (dm : String) (e : OrderError)
    (h : (s.create_order items dm).2 = .error e) :
    (s.create_order items dm).1 = s := by
  cases hv : Store.validateItems s.products items 0 with
  | error e2 => simp [Store.create_order, hv]
  | ok total =>
    exfalso
    simp [Store.create_order, hv] at h

theorem create_order_error_state_unchanged_witness :
    (emptyStore.create_order [⟨1, 1⟩] "pickup").1 = emptyStore :=
  create_order_error_state_unchanged emptyStore [⟨1, 1⟩] "pickup"
    .productNotFound (by rw [empty_order_error_eval])

/-- C3: `create_order` raises error `e` exactly when the first failing line
classifies to `e` (absent product → ProductNotFound, then quantity ≤ 0 →
InvalidQuantity, then quantity over current stock → InsufficientStock), and
succeeds exactly when every line passes all three checks. -/
theorem create_order_error_classification (s : Store) (items : List OrderItem)
    (dm : String) :
    (∀ e : OrderError,
      (s.create_order items dm).2 = .error e ↔
        specFirstError s.products items = some e) ∧
    ((∃ o : Order, (s.create_order items dm).2 = .ok o) ↔
      specFirstError s.products items = none) := by
  constructor
  · intro e
    constructor
    · intro h
      cases hv : Store.validateItems s.products items 0 with
      | error e2 =>
        have he : e2 = e := by
          simp [Store.create_order, hv] at h
          exact h
        subst he
        exact (validateItems_error_iff s.products items 0 e2).mp hv
      | ok total => simp [Store.create_order, hv] at h
    · intro h
      have hv := (validateItems_error_iff s.products items 0 e).mpr h
      simp [Store.create_order, hv]
  · constructor
    · rintro ⟨o, ho⟩
      cases hv : Store.validateItems s.products items 0 with
      | error e2 => simp [Store.create_order, hv] at ho
      | ok total => exact validateItems_ok_firstError_none s.products items 0 total hv
    · intro h
      have hv := validateItems_total_ne s.products items 0 h
      exact ⟨{ id := s.next_order_id, items := items
               total_price := Store.round2 (0 + specTotal s.products items)
               delivery_method := dm, status := "pending" },
             by simp [Store.create_order, hv]⟩

theorem create_order_error_classification_witness :
    specFirstError emptyStore.products [⟨1, 1⟩] = some .productNotFound :=
  ((create_order_error_classification emptyStore [⟨1, 1⟩] "pickup").1
    .productNotFound).mp (by rw [empty_order_error_eval])

/-- C4: on success the returned order's total is the exact (rational) sum of
`price × quantity` over all lines with rounding to two decimals applied once
on that final sum — there is no per-line rounding in the accumulation. -/
theorem create_order_total_rounded_once (s : Store) (items : List OrderItem)
    (dm : String) (st : Store) (o : Order)
    (h : s.create_order items dm = (st, .ok o)) :
    o.total_price = Store.round2 (specTotal s.products items) := by
  cases hv : Store.validateItems s.products items 0 with
  | error e => simp [Store.create_order, hv] at h
  | ok total =>
    have htot := validateItems_ok s.products items 0 total hv
    simp [Store.create_order, hv] at h
    obtain ⟨h1, h2⟩ := h
    rw [← h2]
    simp [htot]

theorem create_order_total_rounded_once_witness :
    scenarioOrder.total_price = Store.round2 (specTotal scenarioStore.products [⟨1, 5⟩]) :=
  create_order_total_rounded_once scenarioStore [⟨1, 5⟩] "pickup"
    scenarioStoreAfter scenarioOrder scenario_eval

/-- C5: the spec's concrete scenario: catalog `Product(id=1, price=0.69,
stock=100)`; placing `[(1, 5)]` with pickup succeeds, leaves stock 95, and
appends an order with total 3.45 and status "pending". -/
theorem create_order_scenario_pickup :
    scenarioStore.create_order [⟨1, 5⟩] "pickup" = (scenarioStoreAfter, .ok scenarioOrder) ∧
    (dictGet scenarioStoreAfter.products 1).map Product.quantity = some 95 ∧
    scenarioOrder.total_price = 345/100 ∧
    scenarioOrder.status = "pending" ∧
    scenarioStoreAfter.orders = scenarioStore.orders ++ [scenarioOrder] := by
  refine ⟨scenario_eval, ?_, ?_, rfl, ?_⟩
  · simp [scenarioStoreAfter, scenarioStore, dictGet]
  · norm_num [scenarioOrder]
  · simp [scenarioStoreAfter, scenarioStore, scenarioOrder]

/-- C6 counterexample: the claim says the catalog add operation fails with
`InvalidInput` whenever the supplied price is negative and inserts nothing;
the route instead clamps the price to 0 and inserts the product. -/
theorem add_product_route_negative_price_not_rejected :
    add_product_route emptyStore "X" (-1) 5
      = .ok { emptyStore with
              products := [(1, { id := 1, name := "X", price := 0, quantity := 5 })] } := by
  have hs : pyStrip "X" = "X" := by decide
  simp [add_product_route, hs, Store.add_product, Store.next_product_id, dictSet, emptyStore]

/-- C6 amended: the add route fails only when the stripped name is empty (and
then inserts nothing); a negative price or quantity is not rejected — both
are clamped to zero (`max(price, 0.0)`, `max(quantity, 0)`) and the product
is inserted. -/
theorem add_product_route_clamps (s : Store) (name : String) (price : ℚ)
    (quantity : Int) :
    (pyStrip name = "" →
      add_product_route s name price quantity = .error "Product name is required.") ∧
    (pyStrip name ≠ "" →
      add_product_route s name price quantity
        = .ok (s.add_product (pyStrip name) (max price 0) (max quantity 0))) := by
  constructor
  · intro h
    simp [add_product_route, h]
  · intro h
    simp [add_product_route, h]

theorem add_product_route_clamps_witness :
    add_product_route emptyStore "" 1 1 = .error "Product name is required." ∧
    add_product_route emptyStore "X" (-1) 5
      = .ok (emptyStore.add_product (pyStrip "X") (max (-1 : ℚ) 0) (max (5 : Int) 0)) :=
  ⟨(add_product_route_clamps emptyStore "" 1 1).1 (by decide),
   (add_product_route_clamps emptyStore "X" (-1) 5).2 (by decide)⟩

/-- C7: `update_product` on an absent id returns the store unchanged and
raises nothing; on a present id it overwrites exactly that product's name,
price and quantity (keeping its id), leaves every other key's lookup
unchanged, and never touches the order ledger. -/
theorem update_product_frame (s : Store) (pid : Int) (name : String)
    (price : ℚ) (qty : Int) :
    (dictGet s.products pid = none → s.update_product pid name price qty = s) ∧
    (s.update_product pid name price qty).orders = s.orders ∧
    (∀ k, k ≠ pid →
      dictGet (s.update_product pid name price qty).products k = dictGet s.products k) ∧
    (∀ p, dictGet s.products pid = some p →
      dictGet (s.update_product pid name price qty).products pid
        = some { p with name := name, price := price, quantity := qty }) := by
  cases hget : dictGet s.products pid with
  | none =>
    have hr : s.update_product pid name price qty = s := by
      simp [Store.update_product, hget]
    exact ⟨fun _ => hr, by rw [hr], fun k _ => by rw [hr], fun p hp => by cases hp⟩
  | some p0 =>
    have hr : s.update_product pid name price qty
        = { s with products := dictModify s.products pid (fun p => { p with name := name, price := price, quantity := qty }) } := by
      simp [Store.update_product, hget]
    refine ⟨?_, ?_, ?_, ?_⟩
    · intro hc
      cases hc
    · rw [hr]
    · intro k hk
      rw [hr]
      exact dictGet_dictModify_ne s.products pid k _ hk
    · intro p hp
      injection hp with hpp
      subst hpp
      rw [hr]
      show dictGet (dictModify s.products pid _) pid = _
      rw [dictGet_dictModify_eq, hget]
      rfl

theorem update_product_frame_witness :
    scenarioStore.update_product 99 "N" 1 1 = scenarioStore ∧
    dictGet (scenarioStore.update_product 1 "N" 2 7).products 1
      = some { id := 1, name := "N", price := 2, quantity := 7 } :=
  ⟨(update_product_frame scenarioStore 99 "N" 1 1).1 (by simp [scenarioStore, dictGet]),
   (update_product_frame scenarioStore 1 "N" 2 7).2.2.2
     { id := 1, name := "Bananas", price := 69/100, quantity := 100 }
     (by simp [scenarioStore, dictGet])⟩

/-- C8: a successful `create_order` appends an order whose id is strictly
above every id already in the ledger — one more than the maximum existing
order id, or 1 when the ledger is empty — so (orders never being removed)
no order identifier is ever reused. -/
theorem create_order_id_monotone (s : Store) (items : List OrderItem)
    (dm : String) (st : Store) (o : Order)
    (h : s.create_order items dm = (st, .ok o)) :
    (s.orders = [] → o.id = 1) ∧
    (∀ o2 ∈ s.orders, o2.id < o.id) ∧
    (s.orders ≠ [] → ∃ m ∈ s.orders, o.id = m.id + 1 ∧ ∀ o2 ∈ s.orders, o2.id ≤ m.id) ∧
    st.orders = s.orders ++ [o] := by
  cases hv : Store.validateItems s.products items 0 with
  | error e => simp [Store.create_order, hv] at h
  | ok total =>
    simp [Store.create_order, hv] at h
    obtain ⟨hst, ho⟩ := h
    have hid : o.id = s.next_order_id := by rw [← ho]
    have horders : st.orders = s.orders ++ [o] := by
      rw [← hst, ← ho]
    refine ⟨?_, ?_, ?_, horders⟩
    · intro hnil
      rw [hid]
      simp [Store.next_order_id, hnil]
    · intro o2 hmem
      rw [hid]
      cases hord : s.orders with
      | nil => rw [hord] at hmem; cases hmem
      | cons o1 os =>
        rw [hord] at hmem
        have hle : o2.id ≤ os.foldl (fun m o3 => max m o3.id) o1.id := by
          rcases List.mem_cons.mp hmem with h2 | h2
          · rw [h2]
            exact foldl_max_init_le os o1.id
          · exact foldl_max_mem_le os o1.id o2 h2
        calc o2.id ≤ os.foldl (fun m o3 => max m o3.id) o1.id := hle
        _ < os.foldl (fun m o3 => max m o3.id) o1.id + 1 := by omega
        _ = s.next_order_id := by simp [Store.next_order_id, hord]
    · intro hne
      cases hord : s.orders with
      | nil => exact absurd hord hne
      | cons o1 os =>
        rcases foldl_max_attained os o1.id with hmax | ⟨m, hmem, hmax⟩
        · refine ⟨o1, List.mem_cons_self o1 os, ?_, ?_⟩
          · rw [hid]
            simp [Store.next_order_id, hord, hmax]
          · intro o2 hmem2
            rw [← hmax]
            rcases List.mem_cons.mp hmem2 with h2 | h2
            · rw [h2]
              exact foldl_max_init_le os o1.id
            · exact foldl_max_mem_le os o1.id o2 h2
        · refine ⟨m, List.mem_cons_of_mem o1 hmem, ?_, ?_⟩
          · rw [hid]
            simp [Store.next_order_id, hord, hmax]
          · intro o2 hmem2
            rw [← hmax]
            rcases List.mem_cons.mp hmem2 with h2 | h2
            · rw [h2]
              exact foldl_max_init_le os o1.id
            · exact foldl_max_mem_le os o1.id o2 h2

theorem create_order_id_monotone_witness :
    scenarioOrder.id = 1 ∧
    scenarioStoreAfter.orders = scenarioStore.orders ++ [scenarioOrder] := by
  have h := create_order_id_monotone scenarioStore [⟨1, 5⟩] "pickup"
    scenarioStoreAfter scenarioOrder scenario_eval
  exact ⟨h.1 rfl, h.2.2.2⟩

/-- An order whose status is already "completed", and a store holding it,
exercising the status-update route. -/
def completedOrder : Order :=
  { id := 1, items := [], total_price := 0, delivery_method := "pickup"
    status := "completed" }

def statusStore : Store :=
  { id := 1, name := "S", products := [], orders := [completedOrder] }

/-- C9: the status-update route accepts any target value in
{pending, accepted, ready, completed} from any current status (no ordering
is enforced, so even "completed" can go back to "pending") and sets the
found order's status to it; a value outside the set is rejected and the
store — in particular the order — is unchanged. -/
theorem update_order_status_spec (s : Store) (oid : Int) (new_status : String) :
    (new_status ∈ allowedStatuses →
      ∀ o, s.get_order oid = some o →
        (update_order_status s oid new_status).get_order oid
          = some { o with status := new_status }) ∧
    (new_status ∉ allowedStatuses → update_order_status s oid new_status = s) := by
  constructor
  · intro hmem o ho
    have hr : update_order_status s oid new_status
        = { s with orders := setStatusFirst s.orders oid new_status } := by
      simp [update_order_status, ho, hmem]
    rw [hr]
    exact find?_setStatusFirst s.orders oid new_status o ho
  · intro hmem
    cases hfind : s.get_order oid with
    | none => simp [update_order_status, hfind]
    | some o => simp [update_order_status, hfind, hmem]

theorem update_order_status_spec_witness :
    (update_order_status statusStore 1 "pending").get_order 1
      = some { completedOrder with status := "pending" } ∧
    update_order_status statusStore 1 "shipped" = statusStore :=
  ⟨(update_order_status_spec statusStore 1 "pending").1 (by decide)
      completedOrder rfl,
   (update_order_status_spec statusStore 1 "shipped").2 (by decide)⟩

/-- C10: `create_order` with an empty item list raises nothing: both loops
run zero iterations, so it leaves every product's stock untouched and
appends an order with no lines, total 0.0, and status "pending" — the
spec's non-empty-input precondition is not enforced by the core. -/
theorem create_order_empty_items (s : Store) (dm : String) :
    s.create_order [] dm
      = ({ s with orders := s.orders ++
            [{ id := s.next_order_id, items := [], total_price := 0
               delivery_method := dm, status := "pending" }] },
         .ok { id := s.next_order_id, items := [], total_price := 0
               delivery_method := dm, status := "pending" }) := by
  have h0 : Store.round2 0 = 0 := by norm_num [Store.round2]
  simp [Store.create_order, Store.validateItems, Store.decrementItems, h0]

end Grocery
